import Mathlib

/-!
Shallow embedding of the financial computation engine and access-control
policy of the invoice/procurement management system (`app/models.py`,
`app/security.py`, `app/blueprints/procurements/routes.py`).

Python `Decimal` values are modelled as rationals (`ℚ`); `Decimal`
quantization with `ROUND_HALF_UP` (ties away from zero) and with the
context default `ROUND_HALF_EVEN` are modelled explicitly.  Nullable
database columns are modelled as `Option ℚ`, and Python truthiness on
them (`None` and `0` are falsy) is spelled out where the source relies
on it.
-/

namespace InvoiceProc

/-- Round a rational to an integer, half away from zero, as Python
`Decimal` rounding mode `ROUND_HALF_UP` does. -/
def rhu (x : ℚ) : ℤ :=
  if 0 ≤ x then ⌊x + 1/2⌋ else -⌊-x + 1/2⌋

/-- Round a rational to an integer, half to even, as the Python `Decimal`
context default `ROUND_HALF_EVEN` (used by `quantize` when no explicit
rounding mode is given). -/
def rhe (x : ℚ) : ℤ :=
  let f := ⌊x⌋
  let r := x - f
  if r < 1/2 then f
  else if 1/2 < r then f + 1
  else if Even f then f else f + 1

/-- Embedding of `_money`: quantize to 2 decimal places with `ROUND_HALF_UP`. -/
def money (x : ℚ) : ℚ := (rhu (x * 100) : ℚ) / 100

/-- Quantization to 7 decimal places with the `Decimal` default rounding
(`ROUND_HALF_EVEN`), as performed by `.quantize(Decimal("0.0000001"))` in
`_normalize_percent` and `_percent_to_fraction`. -/
def q7 (x : ℚ) : ℚ := (rhe (x * 10000000) : ℚ) / 10000000

/-- Embedding of `_to_decimal`: `None` becomes `0.00`. -/
def toDecimal (v : Option ℚ) : ℚ := v.getD 0

/-- Embedding of `_normalize_percent`: divide by 100 only when the value
exceeds 1, then quantize to 7 decimal places. -/
def normalizePercent (rate : ℚ) : ℚ :=
  if 1 < rate then q7 (rate / 100) else q7 rate

/-- Embedding of `_percent_to_fraction`: always divide by 100, then
quantize to 7 decimal places. -/
def percentToFraction (p : ℚ) : ℚ := q7 (p / 100)

/-- Embedding of `_display_percent`. -/
def displayPercent (rate : ℚ) : ℚ :=
  if rate ≤ 1 ∧ rate ≠ 0 then money (rate * 100) else money rate

/-- Master-data row of `withholding_profiles` (percent columns are
`Numeric(6,2)`, always stored as percents). -/
structure WithholdingProfile where
  mt_eloa_percent : Option ℚ
  eadhsy_percent : Option ℚ
  withholding1_percent : Option ℚ
  withholding2_percent : Option ℚ
  is_active : Bool
deriving DecidableEq

/-- Master-data row of `income_tax_rules` (`rate_percent` is
`Numeric(6,2)`, `threshold_amount` is `Numeric(12,2)`). -/
structure IncomeTaxRule where
  description : Option String
  rate_percent : Option ℚ
  threshold_amount : Option ℚ
  is_active : Bool
deriving DecidableEq

/-- One `procurement_materials` line (both columns nullable). -/
structure MaterialLine where
  quantity : Option ℚ
  unit_price : Option ℚ
deriving DecidableEq

/-- The slice of a `Procurement` row consumed by the payment computations:
`sum_total` (`Numeric(12,2)`), `vat_rate` (`Numeric(5,4)`), and the two
resolved reference-data relationships. -/
structure Procurement where
  sum_total : Option ℚ
  vat_rate : Option ℚ
  withholding_profile : Option WithholdingProfile
  income_tax_rule : Option IncomeTaxRule
deriving DecidableEq

/-- One entry of the `items` list built by `compute_public_withholdings`. -/
structure WithholdingItem where
  label : String
  percent : ℚ
  amount : ℚ
deriving DecidableEq

/-- The dict returned by `compute_public_withholdings`. -/
structure WithholdingsReport where
  items : List WithholdingItem
  total_percent : ℚ
  total_amount : ℚ
deriving DecidableEq

/-- The dict returned by `compute_income_tax`. -/
structure IncomeTaxReport where
  description : Option String
  rate_percent : ℚ
  threshold : ℚ
  amount : ℚ
deriving DecidableEq

/-- The dict returned by `compute_payment_analysis`. -/
structure PaymentAnalysis where
  sum_total : ℚ
  public_withholdings : WithholdingsReport
  income_tax : IncomeTaxReport
  vat_percent : ℚ
  vat_amount : ℚ
  payable_total : ℚ
deriving DecidableEq

/-- The `parts` list of `compute_public_withholdings`, in source
declaration order. -/
def wparts (profile : WithholdingProfile) : List (String × ℚ) :=
  [("ΜΤ-ΕΛΟΑ", toDecimal profile.mt_eloa_percent),
   ("ΕΑΔΗΣΥ", toDecimal profile.eadhsy_percent),
   ("ΚΡΑΤΗΣΗ 1", toDecimal profile.withholding1_percent),
   ("ΚΡΑΤΗΣΗ 2", toDecimal profile.withholding2_percent)]

/-- One iteration of the `for label, pct in parts` loop of
`compute_public_withholdings`; the accumulator carries
(`items`, `total_amount`, `total_percent`).  `pct or Decimal("0.00")`
is Python truthiness on a `Decimal`: it maps `0` to `0` and is the
identity otherwise. -/
def wstep (base : ℚ) (acc : List WithholdingItem × ℚ × ℚ) (lp : String × ℚ) :
    List WithholdingItem × ℚ × ℚ :=
  let pctMoney := money (if lp.2 = 0 then 0 else lp.2)
  if pctMoney = 0 then acc
  else
    let frac := percentToFraction pctMoney
    let amt := money (base * frac)
    (acc.1 ++ [⟨lp.1, pctMoney, amt⟩], acc.2.1 + amt, acc.2.2 + pctMoney)

/-- Embedding of `Procurement.compute_public_withholdings`. -/
def computePublicWithholdings (p : Procurement) : WithholdingsReport :=
  let base := toDecimal p.sum_total
  match p.withholding_profile with
  | none => ⟨[], 0, 0⟩
  | some profile =>
    if profile.is_active then
      let res := (wparts profile).foldl (wstep base) ([], 0, 0)
      ⟨res.1, money res.2.2, money res.2.1⟩
    else ⟨[], 0, 0⟩

/-- Embedding of `Procurement.compute_income_tax`. -/
def computeIncomeTax (p : Procurement) : IncomeTaxReport :=
  let base_total := toDecimal p.sum_total
  let withh := computePublicWithholdings p
  let after_withholdings := money (base_total - withh.total_amount)
  match p.income_tax_rule with
  | none => ⟨none, 0, 0, 0⟩
  | some rule =>
    if rule.is_active then
      let threshold := toDecimal rule.threshold_amount
      let rate_pct := toDecimal rule.rate_percent
      if base_total ≤ threshold then
        ⟨rule.description, money rate_pct, money threshold, 0⟩
      else
        let rate_frac := normalizePercent rate_pct
        ⟨rule.description, money rate_pct, money threshold, money (after_withholdings * rate_frac)⟩
    else ⟨none, 0, 0, 0⟩

/-- Embedding of `Procurement.compute_payment_analysis`.  Note the source
applies `_money` a second time to `vat_amount` and `payable` when building
the returned dict. -/
def computePaymentAnalysis (p : Procurement) : PaymentAnalysis :=
  let sum_total := toDecimal p.sum_total
  let public_withh := computePublicWithholdings p
  let income_tax := computeIncomeTax p
  let vat_pct_raw := toDecimal p.vat_rate
  let vat_frac := if vat_pct_raw ≠ 0 then normalizePercent vat_pct_raw else 0
  let vat_amount := money (sum_total * vat_frac)
  let payable := money (sum_total - public_withh.total_amount - income_tax.amount + vat_amount)
  ⟨money sum_total, public_withh, income_tax,
   displayPercent vat_pct_raw, money vat_amount, money payable⟩

/-- The results of `Procurement.recalc_totals` (the three derived columns
it assigns). -/
structure Totals where
  sum_total : ℚ
  vat_amount : ℚ
  grand_total : ℚ
deriving DecidableEq

/-- One iteration of the `for line in self.materials` loop of
`recalc_totals`; `if line.quantity and line.unit_price` is Python
truthiness, so a `None` or a zero in either column skips the line. -/
def recalcStep (total : ℚ) (line : MaterialLine) : ℚ :=
  match line.quantity, line.unit_price with
  | some q, some p => if q ≠ 0 ∧ p ≠ 0 then total + q * p else total
  | _, _ => total

/-- Embedding of `Procurement.recalc_totals`: `if not self.vat_rate` is
Python truthiness (`None` or `0` both take the zero-VAT branch). -/
def recalcTotals (materials : List MaterialLine) (vat_rate : Option ℚ) : Totals :=
  let total := materials.foldl recalcStep 0
  let s := money total
  match vat_rate with
  | none => ⟨s, 0, s⟩
  | some v =>
    if v = 0 then ⟨s, 0, s⟩
    else
      let rate := normalizePercent v
      let vat := money (s * rate)
      ⟨s, vat, money (s + vat)⟩

/-- The actor attributes consulted by `app/security.py`:
`current_user.is_authenticated`, `is_admin`, `service_unit_id` and the
`User.can_manage()` predicate. -/
structure Actor where
  is_authenticated : Bool
  admin_flag : Bool
  service_unit_id : Option Nat
  can_manage : Bool
deriving DecidableEq

/-- Embedding of `security.is_admin()`. -/
def isAdmin (a : Actor) : Bool := a.is_authenticated && a.admin_flag

/-- Embedding of `security.is_manager_or_deputy()`. -/
def isManagerOrDeputy (a : Actor) : Bool := a.is_authenticated && a.can_manage

/-- Python truthiness of `user_su_id` in `if not user_su_id or ...`
(`None` and `0` are both falsy). -/
def truthyId : Option Nat → Bool
  | none => false
  | some n => decide (n ≠ 0)

/-- Embedding of the access decision of `procurement_access_required`
(the VIEW permission): admin always, otherwise same service unit with a
truthy own unit id. -/
def canView (a : Actor) (proc_su : Option Nat) : Bool :=
  isAdmin a || (truthyId a.service_unit_id && decide (proc_su = a.service_unit_id))

/-- Embedding of the access decision of `procurement_edit_required`
(the EDIT permission): admin always, otherwise same service unit with a
truthy own unit id AND manager-or-deputy. -/
def canEdit (a : Actor) (proc_su : Option Nat) : Bool :=
  isAdmin a ||
    (truthyId a.service_unit_id && decide (proc_su = a.service_unit_id) &&
      isManagerOrDeputy a)

/-- One `procurement_suppliers` link row, as built by the add-supplier
route. -/
structure ProcurementSupplier where
  supplier_id : Nat
  offered_amount : Option ℚ
  is_winner : Bool
  notes : Option String
deriving DecidableEq

/-- The `link.is_winner = False` assignment in the winner-clearing loop of
`add_procurement_supplier`. -/
def clearWinner (l : ProcurementSupplier) : ProcurementSupplier :=
  ⟨l.supplier_id, l.offered_amount, false, l.notes⟩

/-- Embedding of the state change of route `add_procurement_supplier` on
the procurement's participation list: an existing link for the same
supplier causes an early return (state unchanged); otherwise, when the new
link is marked winner, every existing winner flag is cleared first, and
the new link is appended. -/
def addProcurementSupplier (links : List ProcurementSupplier) (sid : Nat)
    (amt : Option ℚ) (win : Bool) (notes : Option String) :
    List ProcurementSupplier :=
  if links.any (fun l => l.supplier_id == sid) then links
  else
    (if win then links.map clearWinner else links) ++ [⟨sid, amt, win, notes⟩]

/-- Number of participations flagged as winner. -/
def winnerCount (links : List ProcurementSupplier) : Nat :=
  links.countP (fun l => l.is_winner)

/-- Python truthiness of `procurement.hop_approval` (a nullable string
column; the routes store `strip() or None`, so `None` and the empty
string are the falsy cases). -/
def truthyStr : Option String → Bool
  | none => false
  | some s => decide (s ≠ "")

/-- Embedding of the `send_to_expenses` guard shared by the create, edit
and implementation routes: `bool(request.form.get(...))` is the requested
flag; without a truthy `hop_approval` the flag is forced to `False`,
otherwise it is `bool(send_to_expenses and procurement.hop_approval)`. -/
def applySendToExpenses (requested : Bool) (hop_approval : Option String) : Bool :=
  if requested && !truthyStr hop_approval then false
  else requested && truthyStr hop_approval

/-- Spec-side description of the emitted withholding items, written from
the spec's words for comparison with `computePublicWithholdings`: keep, in
declaration order, exactly the components whose money-rounded percent is
non-zero, and give each the amount `money(subtotal × percent_i / 100)`. -/
def specWithholdingItems (base : ℚ) (parts : List (String × ℚ)) :
    List WithholdingItem :=
  (parts.filter (fun lp => decide (money lp.2 ≠ 0))).map
    (fun lp => ⟨lp.1, money lp.2, money (base * (money lp.2 / 100))⟩)

/-- Replace the `vat_rate` column of a procurement, leaving everything
else unchanged (the two storage conventions compared by the VAT
equivalence claim). -/
def withVatRate (p : Procurement) (r : Option ℚ) : Procurement :=
  ⟨p.sum_total, r, p.withholding_profile, p.income_tax_rule⟩

/-- An active income-tax rule with a sub-1% stored rate (0.50, meaning
0.50% per the master-data contract) and threshold 0. -/
def subPercentRule : IncomeTaxRule := ⟨some "ΦΕ 0.50%", some (1/2), some 0, true⟩

/-- A procurement with subtotal 100.00, no withholding profile, and the
sub-1% income-tax rule. -/
def subPercentProc : Procurement := ⟨some 100, none, none, some subPercentRule⟩

/-- An active income-tax rule with rate 4.00% and threshold 0.00. -/
def tinyBaseRule : IncomeTaxRule := ⟨some "ΦΕ 4%", some 4, some 0, true⟩

/-- A procurement whose subtotal exceeds the rule threshold by exactly one
cent (0.01 over 0.00). -/
def tinyBaseProc : Procurement := ⟨some (1/100), none, none, some tinyBaseRule⟩

/-- An active withholding profile: ΜΤ-ΕΛΟΑ 6.00%, ΕΑΔΗΣΥ 0.10%, the two
reserve components zero. -/
def sampleProfile : WithholdingProfile := ⟨some 6, some (1/10), some 0, some 0, true⟩

/-- An active income-tax rule: rate 8.00%, threshold 150.00. -/
def sampleRule : IncomeTaxRule := ⟨some "ΦΕ 8%", some 8, some 150, true⟩

/-- A fully populated procurement: subtotal 1000.00, VAT 24%, the sample
withholding profile and income-tax rule. -/
def sampleProc : Procurement :=
  ⟨some 1000, some (24/100), some sampleProfile, some sampleRule⟩

/-- A procurement with subtotal 100.00 and no reference data, used to vary
the VAT rate. -/
def bareProc : Procurement := ⟨some 100, none, none, none⟩

/-- Two material lines: 2 × 1.50 and one line with a null quantity. -/
def sampleLines : List MaterialLine := [⟨some 2, some (3/2)⟩, ⟨none, some 5⟩]

/-- The same two material lines in the opposite order. -/
def sampleLinesSwapped : List MaterialLine := [⟨none, some 5⟩, ⟨some 2, some (3/2)⟩]

/-- A rational that is a whole number of cents, i.e. representable at the
2-decimal scale of the `Numeric(12,2)` money columns and of every `_money`
result. -/
def IsCent (x : ℚ) : Prop := ∃ n : ℤ, x = (n : ℚ) / 100

lemma rhu_intCast (n : ℤ) : rhu (n : ℚ) = n := by
  unfold rhu
  split
  · rw [add_comm, Int.floor_add_int]
    norm_num
  · rw [show -(n : ℚ) = ((-n : ℤ) : ℚ) by push_cast; ring, add_comm, Int.floor_add_int]
    norm_num

lemma rhe_intCast (n : ℤ) : rhe (n : ℚ) = n := by
  unfold rhe
  rw [Int.floor_intCast]
  norm_num

lemma money_int_div_100 (n : ℤ) : money ((n : ℚ) / 100) = (n : ℚ) / 100 := by
  unfold money
  rw [div_mul_cancel₀ _ (by norm_num : (100 : ℚ) ≠ 0), rhu_intCast]

lemma isCent_money (x : ℚ) : IsCent (money x) := ⟨rhu (x * 100), rfl⟩

lemma isCent_zero : IsCent 0 := ⟨0, by norm_num⟩

lemma money_eq_self (x : ℚ) (h : IsCent x) : money x = x := by
  obtain ⟨n, rfl⟩ := h
  exact money_int_div_100 n

lemma isCent_sum (l : List ℚ) (h : ∀ x ∈ l, IsCent x) : IsCent l.sum := by
  induction l with
  | nil => exact isCent_zero
  | cons hd tl ih =>
    obtain ⟨a, ha⟩ := h hd (List.mem_cons_self hd tl)
    obtain ⟨b, hb⟩ := ih fun x hx => h x (List.mem_cons_of_mem hd hx)
    exact ⟨a + b, by rw [List.sum_cons, ha, hb]; push_cast; ring⟩

lemma q7_int_div (n : ℤ) : q7 ((n : ℚ) / 10000000) = (n : ℚ) / 10000000 := by
  unfold q7
  rw [div_mul_cancel₀ _ (by norm_num : (10000000 : ℚ) ≠ 0), rhe_intCast]

lemma percentToFraction_money (x : ℚ) :
    percentToFraction (money x) = money x / 100 := by
  unfold percentToFraction money
  rw [show (rhu (x * 100) : ℚ) / 100 / 100 =
      ((rhu (x * 100) * 1000 : ℤ) : ℚ) / 10000000 by push_cast; ring,
    q7_int_div]

lemma money_nonneg (x : ℚ) (h : 0 ≤ x) : 0 ≤ money x := by
  unfold money rhu
  rw [if_pos (mul_nonneg h (by norm_num))]
  have h1 : (0 : ℤ) ≤ ⌊x * 100 + 1/2⌋ :=
    Int.le_floor.mpr (by push_cast; linarith)
  exact div_nonneg (by exact_mod_cast h1) (by norm_num)

lemma money_pos_iff (x : ℚ) (h : 0 ≤ x) : 0 < money x ↔ 1/200 ≤ x := by
  unfold money rhu
  rw [if_pos (mul_nonneg h (by norm_num))]
  rw [lt_div_iff₀ (by norm_num : (0 : ℚ) < 100), zero_mul, Int.cast_pos,
    Int.lt_iff_add_one_le, zero_add, Int.le_floor]
  push_cast
  constructor <;> intro h1 <;> linarith

lemma ite_zero_self (x : ℚ) : (if x = 0 then (0 : ℚ) else x) = x := by
  split <;> simp_all

/-- C7: for every actor/procurement pair, if the edit permission check
(admin, or same service unit and manager-or-deputy) grants access, then
the view permission check (admin, or same service unit) also grants
access: `can_edit` implies `can_view`. -/
theorem edit_implies_view (a : Actor) (proc_su : Option Nat)
    (h : canEdit a proc_su = true) : canView a proc_su = true := by
  simp only [canEdit, canView, Bool.or_eq_true, Bool.and_eq_true] at h ⊢
  tauto

/-- Witness for `edit_implies_view`: a same-unit manager passes the edit
check, hence the view check. -/
theorem edit_implies_view_witness :
    canView ⟨true, false, some 1, true⟩ (some 1) = true :=
  edit_implies_view ⟨true, false, some 1, true⟩ (some 1) (by decide)

/-- C10: at the create/edit/implementation boundary, `send_to_expenses`
can end up `true` only when `hop_approval` is present (non-null); a
request to set the flag without `hop_approval` yields `false`. -/
theorem send_to_expenses_requires_hop_approval (requested : Bool)
    (hop : Option String) :
    (applySendToExpenses requested hop = true → hop ≠ none) ∧
    applySendToExpenses requested none = false := by
  constructor
  · intro h hn
    subst hn
    revert h
    cases requested <;> simp [applySendToExpenses, truthyStr]
  · cases requested <;> simp [applySendToExpenses, truthyStr]

/-- Witness for `send_to_expenses_requires_hop_approval`: with an approval
marker present the implication applies, and a request without one is
forced to `false`. -/
theorem send_to_expenses_requires_hop_approval_witness :
    ((some "ΗΩΠ-42" : Option String) ≠ none) ∧
    applySendToExpenses true none = false :=
  ⟨(send_to_expenses_requires_hop_approval true (some "ΗΩΠ-42")).1 (by decide),
   (send_to_expenses_requires_hop_approval true none).2⟩

/-- C9: the add-supplier route preserves the at-most-one-winner
invariant: when the new link is marked winner, all existing winner flags
are cleared first, so afterwards at most one participation of the
procurement is flagged as winner. -/
theorem winner_flag_invariant_preserved (links : List ProcurementSupplier)
    (sid : Nat) (amt : Option ℚ) (win : Bool) (notes : Option String)
    (h : winnerCount links ≤ 1) :
    winnerCount (addProcurementSupplier links sid amt win notes) ≤ 1 := by
  unfold addProcurementSupplier
  split
  · exact h
  · cases win with
    | true =>
      have hmap : winnerCount (links.map clearWinner) = 0 := by
        unfold winnerCount
        rw [List.countP_map]
        refine List.countP_eq_zero.mpr fun a _ => ?_
        simp [clearWinner, Function.comp]
      unfold winnerCount at hmap ⊢
      rw [if_pos rfl, List.countP_append, hmap]
      simp [List.countP_cons]
    | false =>
      unfold winnerCount at h ⊢
      rw [if_neg (by simp), List.countP_append]
      simpa [List.countP_cons] using h

/-- Witness for `winner_flag_invariant_preserved`: adding a winner link to
a list that already has one winner. -/
theorem winner_flag_invariant_preserved_witness :
    winnerCount (addProcurementSupplier [⟨7, none, true, none⟩] 9 none true none) ≤ 1 :=
  winner_flag_invariant_preserved [⟨7, none, true, none⟩] 9 none true none (by decide)

/-- C8: an absent or inactive WithholdingProfile yields an empty
withholdings breakdown with zero totals, and an absent or inactive
IncomeTaxRule yields zero income tax with a null description; both are
ordinary return values, not errors. -/
theorem missing_reference_data_zero (p : Procurement) :
    ((p.withholding_profile = none ∨
        ∃ pr, p.withholding_profile = some pr ∧ pr.is_active = false) →
      computePublicWithholdings p = ⟨[], 0, 0⟩) ∧
    ((p.income_tax_rule = none ∨
        ∃ r, p.income_tax_rule = some r ∧ r.is_active = false) →
      (computeIncomeTax p).amount = 0 ∧ (computeIncomeTax p).description = none) := by
  constructor
  · rintro (h | ⟨pr, h, ha⟩)
    · simp [computePublicWithholdings, h]
    · simp [computePublicWithholdings, h, ha]
  · rintro (h | ⟨r, h, ha⟩)
    · simp [computeIncomeTax, h]
    · simp [computeIncomeTax, h, ha]

/-- Witness for `missing_reference_data_zero`: a procurement with neither
reference relationship set. -/
theorem missing_reference_data_zero_witness :
    computePublicWithholdings ⟨some 100, none, none, none⟩ = ⟨[], 0, 0⟩ ∧
    (computeIncomeTax ⟨some 100, none, none, none⟩).amount = 0 ∧
    (computeIncomeTax ⟨some 100, none, none, none⟩).description = none :=
  ⟨(missing_reference_data_zero ⟨some 100, none, none, none⟩).1 (Or.inl rfl),
   (missing_reference_data_zero ⟨some 100, none, none, none⟩).2 (Or.inl rfl)⟩

/-- C1: at a sub-1% stored rate the code does NOT divide by 100.  For
rate_percent = 0.50 (0.50% per the master-data contract), subtotal 100.00,
threshold 0.00 and no withholdings, `compute_income_tax` multiplies by
`_normalize_percent(0.50) = 0.50` and returns 50.00, while the claimed
formula `money(after_withholding × percent_to_fraction(rate_percent))`
gives 0.50: the code contradicts `_normalize_percent`'s own docstring,
which forbids its use on always-percent master data. -/
theorem income_tax_rate_not_divided_eval :
    (computeIncomeTax subPercentProc).amount = 50 ∧
    money (money (toDecimal subPercentProc.sum_total
        - (computePublicWithholdings subPercentProc).total_amount)
      * percentToFraction (toDecimal subPercentRule.rate_percent)) = 1/2 ∧
    (50 : ℚ) ≠ 1/2 := by
  refine ⟨?_, ?_, by norm_num⟩
  · norm_num [computeIncomeTax, subPercentProc, subPercentRule,
      computePublicWithholdings, toDecimal, money, rhu, normalizePercent, q7, rhe]
  · norm_num [computePublicWithholdings, subPercentProc, subPercentRule,
      toDecimal, money, rhu, percentToFraction, q7, rhe]

/-- C2 counterexample: with rate 4.00% > 0, threshold 0.00 and subtotal
0.01 = threshold + 0.01, the computed tax is 0 even though the subtotal
strictly exceeds the threshold — money rounding sends
`money(0.01 × 0.04) = money(0.0004)` to zero, so the claimed "if and only
if" (and the positivity at threshold + 0.01) fails. -/
theorem income_tax_boundary_counterexample :
    toDecimal tinyBaseRule.threshold_amount < toDecimal tinyBaseProc.sum_total ∧
    0 < toDecimal tinyBaseRule.rate_percent ∧
    toDecimal tinyBaseProc.sum_total = toDecimal tinyBaseRule.threshold_amount + 1/100 ∧
    (computeIncomeTax tinyBaseProc).amount = 0 := by
  refine ⟨by norm_num [tinyBaseProc, tinyBaseRule, toDecimal],
    by norm_num [tinyBaseRule, toDecimal],
    by norm_num [tinyBaseProc, tinyBaseRule, toDecimal], ?_⟩
  norm_num [computeIncomeTax, tinyBaseProc, tinyBaseRule,
    computePublicWithholdings, toDecimal, money, rhu, normalizePercent, q7, rhe]

/-- C2 amended: with an active IncomeTaxRule, the tax amount is 0 whenever
subtotal ≤ threshold (the comparison is against the raw subtotal, so a
subtotal exactly equal to the threshold yields zero tax); above the
threshold the amount is `money(after_withholding × normalize(rate))`,
which is strictly positive exactly when that (non-negative) product is at
least 0.005 — it can round to zero for tiny products. -/
theorem income_tax_threshold_gate (p : Procurement) (rule : IncomeTaxRule)
    (hr : p.income_tax_rule = some rule) (ha : rule.is_active = true) :
    (toDecimal p.sum_total ≤ toDecimal rule.threshold_amount →
      (computeIncomeTax p).amount = 0) ∧
    (toDecimal rule.threshold_amount < toDecimal p.sum_total →
      (computeIncomeTax p).amount =
        money (money (toDecimal p.sum_total
            - (computePublicWithholdings p).total_amount) *
          normalizePercent (toDecimal rule.rate_percent)) ∧
      (0 ≤ money (toDecimal p.sum_total
            - (computePublicWithholdings p).total_amount) *
          normalizePercent (toDecimal rule.rate_percent) →
        (0 < (computeIncomeTax p).amount ↔
          1/200 ≤ money (toDecimal p.sum_total
              - (computePublicWithholdings p).total_amount) *
            normalizePercent (toDecimal rule.rate_percent)))) := by
  unfold computeIncomeTax
  rw [hr]
  simp only [ha, if_true]
  constructor
  · intro hle
    rw [if_pos hle]
  · intro hlt
    rw [if_neg (not_le.mpr hlt)]
    exact ⟨rfl, fun hnn => money_pos_iff _ hnn⟩

/-- Witness for `income_tax_threshold_gate`: the sample 8%/150.00 rule on
a 1000.00 subtotal; the below-threshold arm applies to nothing here, the
above-threshold arm gives a positive tax. -/
theorem income_tax_threshold_gate_witness :
    0 < (computeIncomeTax sampleProc).amount := by
  have h := (income_tax_threshold_gate sampleProc sampleRule rfl rfl).2
    (by norm_num [sampleProc, sampleRule, toDecimal])
  rw [h.1]
  rw [money_pos_iff _ ?hnn]
  case hnn =>
    apply mul_nonneg
    · apply money_nonneg
      norm_num [sampleProc, sampleProfile, toDecimal, computePublicWithholdings,
        wparts, wstep, money, rhu, percentToFraction, q7, rhe]
    · norm_num [sampleRule, toDecimal, normalizePercent, q7, rhe]
  norm_num [sampleProc, sampleProfile, sampleRule, toDecimal,
    computePublicWithholdings, wparts, wstep, money, rhu,
    percentToFraction, normalizePercent, q7, rhe]

lemma isCent_withholdings_total (p : Procurement) :
    IsCent (computePublicWithholdings p).total_amount := by
  unfold computePublicWithholdings
  rcases p.withholding_profile with _ | profile
  · exact isCent_zero
  · dsimp only
    split
    · exact isCent_money _
    · exact isCent_zero

lemma isCent_income_tax_amount (p : Procurement) :
    IsCent (computeIncomeTax p).amount := by
  unfold computeIncomeTax
  rcases p.income_tax_rule with _ | rule
  · exact isCent_zero
  · dsimp only
    split
    · split
      · exact isCent_zero
      · exact isCent_money _
    · exact isCent_zero

/-- C4: the orchestrator's output satisfies
`payable_total = sum_total − withholdings.total_amount − income_tax.amount
+ vat_amount` exactly, as an identity over the report's own fields, for
every procurement whose stored `sum_total` is a whole number of cents (the
`Numeric(12,2)` column guarantees this for every stored row). -/
theorem payment_analysis_payable_identity (p : Procurement)
    (h : ∃ n : ℤ, toDecimal p.sum_total = (n : ℚ) / 100) :
    (computePaymentAnalysis p).payable_total =
      (computePaymentAnalysis p).sum_total
        - (computePaymentAnalysis p).public_withholdings.total_amount
        - (computePaymentAnalysis p).income_tax.amount
        + (computePaymentAnalysis p).vat_amount := by
  obtain ⟨n, hn⟩ := h
  obtain ⟨w0, hw⟩ := isCent_withholdings_total p
  obtain ⟨t0, ht⟩ := isCent_income_tax_amount p
  unfold computePaymentAnalysis
  dsimp only
  rw [hn, hw, ht]
  obtain ⟨v0, hv⟩ := isCent_money ((n : ℚ) / 100 *
    (if toDecimal p.vat_rate ≠ 0 then normalizePercent (toDecimal p.vat_rate) else 0))
  rw [hv]
  rw [show (n : ℚ) / 100 - (w0 : ℚ) / 100 - (t0 : ℚ) / 100 + (v0 : ℚ) / 100 =
      ((n - w0 - t0 + v0 : ℤ) : ℚ) / 100 by push_cast; ring]
  rw [money_int_div_100, money_int_div_100, money_int_div_100, money_int_div_100]
  push_cast
  ring

/-- Witness for `payment_analysis_payable_identity`: the fully populated
sample procurement (subtotal 1000.00, VAT 24%, 6.10% withholdings, 8%/150
income-tax rule). -/
theorem payment_analysis_payable_identity_witness :
    (computePaymentAnalysis sampleProc).payable_total =
      (computePaymentAnalysis sampleProc).sum_total
        - (computePaymentAnalysis sampleProc).public_withholdings.total_amount
        - (computePaymentAnalysis sampleProc).income_tax.amount
        + (computePaymentAnalysis sampleProc).vat_amount :=
  payment_analysis_payable_identity sampleProc
    ⟨100000, by norm_num [sampleProc, toDecimal]⟩

/-- C6 counterexample: the percent-form rate 150 (fraction form 1.50, a
value exactly representable at the `Numeric(5,4)` scale) violates the
claimed equivalence: on a subtotal of 100.00 the percent form yields
vat_amount 150.00 while the fraction form is re-interpreted as a percent
by the `> 1` heuristic and yields 1.50. -/
theorem vat_rate_equivalence_counterexample :
    (1 : ℚ) < 150 ∧
    (150 : ℚ) / 100 = ((15000 : ℤ) : ℚ) / 10000 ∧
    (computePaymentAnalysis (withVatRate bareProc (some 150))).vat_amount = 150 ∧
    (computePaymentAnalysis (withVatRate bareProc (some (150/100)))).vat_amount = 3/2 ∧
    (150 : ℚ) ≠ 3/2 := by
  refine ⟨by norm_num, by norm_num, ?_, ?_, by norm_num⟩ <;>
    norm_num [computePaymentAnalysis, withVatRate, bareProc,
      computePublicWithholdings, computeIncomeTax, toDecimal,
      money, rhu, normalizePercent, q7, rhe]

/-- C6 amended: for a percent-form VAT rate p with 1 < p ≤ 100 whose
fraction form p/100 is representable at the stored `Numeric(5,4)`
precision, storing p and storing p/100 produce identical vat_amount (for
p > 100 the fraction form exceeds 1 and the normalize heuristic divides it
by 100 again, breaking the equivalence). -/
theorem vat_rate_equivalence (p : Procurement) (q : ℚ)
    (h1 : 1 < q) (h2 : q ≤ 100)
    (_hrep : ∃ n : ℤ, q / 100 = (n : ℚ) / 10000) :
    (computePaymentAnalysis (withVatRate p (some q))).vat_amount =
      (computePaymentAnalysis (withVatRate p (some (q / 100)))).vat_amount := by
  have hq0 : q ≠ 0 := by
    intro h
    rw [h] at h1
    norm_num at h1
  have hq100 : q / 100 ≠ 0 := div_ne_zero hq0 (by norm_num)
  have hfrac : normalizePercent q = normalizePercent (q / 100) := by
    unfold normalizePercent
    rw [if_pos h1, if_neg (not_lt.mpr ((div_le_one (by norm_num)).mpr h2))]
  unfold computePaymentAnalysis withVatRate
  dsimp only [toDecimal, Option.getD]
  rw [if_pos hq0, if_pos hq100, hfrac]

/-- Witness for `vat_rate_equivalence`: p = 24 against p/100 = 0.24 on the
bare 100.00 procurement. -/
theorem vat_rate_equivalence_witness :
    (computePaymentAnalysis (withVatRate bareProc (some 24))).vat_amount =
      (computePaymentAnalysis (withVatRate bareProc (some (24 / 100)))).vat_amount :=
  vat_rate_equivalence bareProc 24 (by norm_num) (by norm_num)
    ⟨2400, by norm_num⟩

lemma recalcStep_eq (a : ℚ) (l : MaterialLine) :
    recalcStep a l = a + toDecimal l.quantity * toDecimal l.unit_price := by
  unfold recalcStep toDecimal
  rcases l with ⟨q, p⟩
  rcases q with _ | q <;> rcases p with _ | p <;> dsimp only [Option.getD]
  · ring
  · ring
  · ring
  · by_cases h : q ≠ 0 ∧ p ≠ 0
    · rw [if_pos h]
    · rw [if_neg h]
      rcases not_and_or.mp h with h | h <;> rw [not_not.mp h] <;> ring

lemma recalcFold (ls : List MaterialLine) (a : ℚ) :
    ls.foldl recalcStep a =
      a + (ls.map (fun l => toDecimal l.quantity * toDecimal l.unit_price)).sum := by
  induction ls generalizing a with
  | nil => simp
  | cons hd tl ih =>
    rw [List.foldl_cons, ih, recalcStep_eq, List.map_cons, List.sum_cons]
    ring

lemma recalcTotals_sum_total (ls : List MaterialLine) (vr : Option ℚ) :
    (recalcTotals ls vr).sum_total = money (ls.foldl recalcStep 0) := by
  unfold recalcTotals
  rcases vr with _ | v
  · rfl
  · dsimp only
    split
    · rfl
    · rfl

/-- C5: `recalc_totals` sets `sum_total` to the money-rounded sum of
quantity × unit price over all lines (a null quantity or price contributes
zero); the result is invariant under permuting the lines, and it is
non-negative whenever all quantities and prices are non-negative. -/
theorem recalc_totals_sum_spec (ls ls' : List MaterialLine) (vr : Option ℚ)
    (hperm : ls.Perm ls')
    (hnn : ∀ l ∈ ls, 0 ≤ toDecimal l.quantity ∧ 0 ≤ toDecimal l.unit_price) :
    (recalcTotals ls vr).sum_total =
      money ((ls.map
        (fun l => toDecimal l.quantity * toDecimal l.unit_price)).sum) ∧
    (recalcTotals ls vr).sum_total = (recalcTotals ls' vr).sum_total ∧
    0 ≤ (recalcTotals ls vr).sum_total := by
  have hmain : ∀ xs : List MaterialLine, (recalcTotals xs vr).sum_total =
      money ((xs.map
        (fun l => toDecimal l.quantity * toDecimal l.unit_price)).sum) := by
    intro xs
    rw [recalcTotals_sum_total, recalcFold, zero_add]
  refine ⟨hmain ls, ?_, ?_⟩
  · rw [hmain ls, hmain ls',
      (hperm.map (fun l => toDecimal l.quantity * toDecimal l.unit_price)).sum_eq]
  · rw [hmain ls]
    apply money_nonneg
    apply List.sum_nonneg
    intro x hx
    obtain ⟨l, hl, rfl⟩ := List.mem_map.mp hx
    exact mul_nonneg (hnn l hl).1 (hnn l hl).2

/-- Witness for `recalc_totals_sum_spec`: the two sample lines (2 × 1.50
plus a null-quantity line) in both orders, with VAT 24%. -/
theorem recalc_totals_sum_spec_witness :
    (recalcTotals sampleLines (some (24/100))).sum_total =
      money ((sampleLines.map
        (fun l => toDecimal l.quantity * toDecimal l.unit_price)).sum) ∧
    (recalcTotals sampleLines (some (24/100))).sum_total =
      (recalcTotals sampleLinesSwapped (some (24/100))).sum_total ∧
    0 ≤ (recalcTotals sampleLines (some (24/100))).sum_total :=
  recalc_totals_sum_spec sampleLines sampleLinesSwapped (some (24/100))
    (by unfold sampleLines sampleLinesSwapped; exact List.Perm.swap _ _ _)
    (by
      intro l hl
      rcases List.mem_cons.mp hl with rfl | hl
      · norm_num [toDecimal]
      · rcases List.mem_cons.mp hl with rfl | hl
        · norm_num [toDecimal]
        · simp at hl)

lemma wstep_skip (base : ℚ) (acc : List WithholdingItem × ℚ × ℚ)
    (lp : String × ℚ) (h : money lp.2 = 0) : wstep base acc lp = acc := by
  simp only [wstep]
  rw [ite_zero_self, if_pos h]

lemma wstep_emit (base : ℚ) (acc : List WithholdingItem × ℚ × ℚ)
    (lp : String × ℚ) (h : ¬ money lp.2 = 0) :
    wstep base acc lp =
      (acc.1 ++ [⟨lp.1, money lp.2, money (base * (money lp.2 / 100))⟩],
       acc.2.1 + money (base * (money lp.2 / 100)),
       acc.2.2 + money lp.2) := by
  simp only [wstep]
  rw [ite_zero_self, if_neg h, percentToFraction_money]

lemma specItems_cons_skip (base : ℚ) (hd : String × ℚ)
    (tl : List (String × ℚ)) (h : money hd.2 = 0) :
    specWithholdingItems base (hd :: tl) = specWithholdingItems base tl := by
  simp [specWithholdingItems, List.filter_cons, h]

lemma specItems_cons_emit (base : ℚ) (hd : String × ℚ)
    (tl : List (String × ℚ)) (h : ¬ money hd.2 = 0) :
    specWithholdingItems base (hd :: tl) =
      ⟨hd.1, money hd.2, money (base * (money hd.2 / 100))⟩ ::
        specWithholdingItems base tl := by
  simp [specWithholdingItems, List.filter_cons, h]

lemma wfold_spec (base : ℚ) (parts : List (String × ℚ))
    (acc : List WithholdingItem) (ta tp : ℚ) :
    parts.foldl (wstep base) (acc, ta, tp) =
      (acc ++ specWithholdingItems base parts,
       ta + ((specWithholdingItems base parts).map WithholdingItem.amount).sum,
       tp + ((specWithholdingItems base parts).map WithholdingItem.percent).sum) := by
  induction parts generalizing acc ta tp with
  | nil => simp [specWithholdingItems]
  | cons hd tl ih =>
    rw [List.foldl_cons]
    by_cases h : money hd.2 = 0
    · rw [wstep_skip base _ _ h, ih, specItems_cons_skip base hd tl h]
    · rw [wstep_emit base _ _ h, ih, specItems_cons_emit base hd tl h]
      dsimp only
      rw [List.map_cons, List.sum_cons, List.map_cons, List.sum_cons]
      simp only [Prod.mk.injEq]
      refine ⟨by simp, by ring, by ring⟩

/-- C3: with an active WithholdingProfile, `compute_public_withholdings`
emits exactly the components whose money-rounded percent is non-zero, in
fixed declaration order (ΜΤ-ΕΛΟΑ, ΕΑΔΗΣΥ, withholding1, withholding2),
each with amount `money(subtotal × percent_i/100)`, and its totals are the
plain sums of the already-rounded per-item amounts and of the emitted
percents. -/
theorem public_withholdings_items_spec (p : Procurement)
    (profile : WithholdingProfile)
    (hp : p.withholding_profile = some profile)
    (ha : profile.is_active = true) :
    (computePublicWithholdings p).items =
      specWithholdingItems (toDecimal p.sum_total) (wparts profile) ∧
    (computePublicWithholdings p).total_amount =
      ((computePublicWithholdings p).items.map WithholdingItem.amount).sum ∧
    (computePublicWithholdings p).total_percent =
      ((computePublicWithholdings p).items.map WithholdingItem.percent).sum := by
  unfold computePublicWithholdings
  rw [hp]
  dsimp only
  simp only [ha, if_true]
  rw [wfold_spec]
  dsimp only
  rw [List.nil_append, zero_add, zero_add]
  refine ⟨rfl, ?_, ?_⟩
  · rw [money_eq_self]
    apply isCent_sum
    intro x hx
    obtain ⟨it, hit, rfl⟩ := List.mem_map.mp hx
    obtain ⟨lp, _, rfl⟩ := List.mem_map.mp hit
    exact isCent_money _
  · rw [money_eq_self]
    apply isCent_sum
    intro x hx
    obtain ⟨it, hit, rfl⟩ := List.mem_map.mp hx
    obtain ⟨lp, _, rfl⟩ := List.mem_map.mp hit
    exact isCent_money _

/-- Witness for `public_withholdings_items_spec`: the sample 6.00% + 0.10%
profile on the 1000.00 procurement. -/
theorem public_withholdings_items_spec_witness :
    (computePublicWithholdings sampleProc).items =
      specWithholdingItems (toDecimal sampleProc.sum_total)
        (wparts sampleProfile) ∧
    (computePublicWithholdings sampleProc).total_amount =
      ((computePublicWithholdings sampleProc).items.map
        WithholdingItem.amount).sum ∧
    (computePublicWithholdings sampleProc).total_percent =
      ((computePublicWithholdings sampleProc).items.map
        WithholdingItem.percent).sum :=
  public_withholdings_items_spec sampleProc sampleProfile rfl rfl
